import Mathlib

/-!
Verification of the stock-ledger and inventory-sync engine of the
orange-fanta backend.  Each definition below is a shallow embedding of one
function of the JavaScript source; theorems check the specification's
claims against these embeddings.
-/

namespace OrangeFanta

/-- Movement type, result of `normRecordType` (src/api/utils/records.js):
the three recognized literals after trim and upper-casing. -/
inductive RType
  | IN
  | OUT
  | PURCHASE
deriving DecidableEq

/-- One persisted movement row (the `Record` table columns the ledger uses):
identifier, type, quantity, optional unit price, and the optional
back-reference `purchaseId` to the PURCHASE movement an IN fulfills. -/
structure Rec where
  id : Nat
  rtype : RType
  count : Int
  price : Option Int
  purchaseId : Option Nat
deriving DecidableEq

/-- Accumulator of the loop inside `calcStockAndPending`
(src/api/utils/records.js lines 51-73): running `stock`, `inSum`,
`purchaseSum`. -/
structure LedgerAcc where
  stock : Int
  inSum : Int
  purchaseSum : Int
deriving DecidableEq

/-- One iteration of the `for` loop of `calcStockAndPending`: IN adds to
stock and inSum, OUT subtracts from stock, PURCHASE adds to purchaseSum. -/
def ledgerStep (acc : LedgerAcc) (r : Rec) : LedgerAcc :=
  match r.rtype with
  | .IN => { acc with stock := acc.stock + r.count, inSum := acc.inSum + r.count }
  | .OUT => { acc with stock := acc.stock - r.count }
  | .PURCHASE => { acc with purchaseSum := acc.purchaseSum + r.count }

/-- Return value of `calcStockAndPending`. -/
structure LedgerSummary where
  stock : Int
  pendingIn : Int
deriving DecidableEq

/-- Embedding of `calcStockAndPending` (src/api/utils/records.js): folds the
movement list through `ledgerStep` and returns
`{stock, pendingIn = max 0 (purchaseSum - inSum)}`. -/
def calcStockAndPending (records : List Rec) : LedgerSummary :=
  let acc := records.foldl ledgerStep ⟨0, 0, 0⟩
  { stock := acc.stock, pendingIn := max 0 (acc.purchaseSum - acc.inSum) }

/-- Sum of the counts of the movements of one type; embeds the database
`groupBy type` + `_sum count` aggregate used by `calcStock`. -/
def typeSum (t : RType) (records : List Rec) : Int :=
  (records.map fun r => if r.rtype = t then r.count else 0).sum

/-- Embedding of `calcStock` (src/api/utils/records.js lines 76-85):
sum of IN counts minus sum of OUT counts. -/
def calcStock (records : List Rec) : Int :=
  typeSum .IN records - typeSum .OUT records

theorem typeSum_cons (t : RType) (r : Rec) (rs : List Rec) :
    typeSum t (r :: rs) = (if r.rtype = t then r.count else 0) + typeSum t rs := by
  simp [typeSum]

theorem foldl_ledgerStep_eq (records : List Rec) (acc : LedgerAcc) :
    records.foldl ledgerStep acc =
      ⟨acc.stock + typeSum .IN records - typeSum .OUT records,
       acc.inSum + typeSum .IN records,
       acc.purchaseSum + typeSum .PURCHASE records⟩ := by
  induction records generalizing acc with
  | nil => simp [typeSum]
  | cons r rs ih =>
      rw [List.foldl_cons, ih]
      rcases acc with ⟨s, i, p⟩
      cases hr : r.rtype <;>
        simp [ledgerStep, hr, typeSum_cons] <;> omega

theorem typeSum_perm (t : RType) {l l' : List Rec} (h : l.Perm l') :
    typeSum t l = typeSum t l' := by
  unfold typeSum
  exact List.Perm.sum_eq (List.Perm.map _ h)

/-- C1: `calcStockAndPending` returns stock = sum(IN) − sum(OUT) (PURCHASE
contributing nothing to stock) and pendingIn = max(0, sum(PURCHASE) −
sum(IN)), and the result is invariant under reordering of the movement
list.  It is a pure Lean function, so it has no side effects. -/
theorem calcStockAndPending_spec (records records' : List Rec)
    (h : records.Perm records') :
    calcStockAndPending records =
      ⟨typeSum .IN records - typeSum .OUT records,
       max 0 (typeSum .PURCHASE records - typeSum .IN records)⟩
    ∧ calcStockAndPending records = calcStockAndPending records' := by
  have key : ∀ l : List Rec,
      calcStockAndPending l =
        ⟨typeSum .IN l - typeSum .OUT l,
         max 0 (typeSum .PURCHASE l - typeSum .IN l)⟩ := by
    intro l
    unfold calcStockAndPending
    rw [foldl_ledgerStep_eq]
    simp
  refine ⟨key records, ?_⟩
  rw [key records, key records',
    typeSum_perm .IN h, typeSum_perm .OUT h, typeSum_perm .PURCHASE h]

/-- Witness for C1 at a concrete pair of permuted movement lists. -/
theorem calcStockAndPending_spec_witness :
    calcStockAndPending
        [⟨1, .IN, 10, none, none⟩, ⟨2, .OUT, 3, none, none⟩,
         ⟨3, .PURCHASE, 5, some 2, none⟩] =
      ⟨typeSum .IN
          [⟨1, .IN, 10, none, none⟩, ⟨2, .OUT, 3, none, none⟩,
           ⟨3, .PURCHASE, 5, some 2, none⟩] -
        typeSum .OUT
          [⟨1, .IN, 10, none, none⟩, ⟨2, .OUT, 3, none, none⟩,
           ⟨3, .PURCHASE, 5, some 2, none⟩],
       max 0 (typeSum .PURCHASE
          [⟨1, .IN, 10, none, none⟩, ⟨2, .OUT, 3, none, none⟩,
           ⟨3, .PURCHASE, 5, some 2, none⟩] -
        typeSum .IN
          [⟨1, .IN, 10, none, none⟩, ⟨2, .OUT, 3, none, none⟩,
           ⟨3, .PURCHASE, 5, some 2, none⟩])⟩
    ∧ calcStockAndPending
        [⟨1, .IN, 10, none, none⟩, ⟨2, .OUT, 3, none, none⟩,
         ⟨3, .PURCHASE, 5, some 2, none⟩] =
      calcStockAndPending
        [⟨2, .OUT, 3, none, none⟩, ⟨1, .IN, 10, none, none⟩,
         ⟨3, .PURCHASE, 5, some 2, none⟩] :=
  calcStockAndPending_spec _ _
    (List.Perm.swap (⟨2, .OUT, 3, none, none⟩ : Rec) (⟨1, .IN, 10, none, none⟩ : Rec)
      [⟨3, .PURCHASE, 5, some 2, none⟩])

/-- A JavaScript numeric value after `Number(...)` coercion: either a finite
number or a non-finite result (NaN/Infinity, for which `Number.isFinite` is
false).  Quantities and prices in this code base are integers. -/
inductive JsNum
  | num (n : Int)
  | nonFinite
deriving DecidableEq

/-- The `type` field of a request body, abstracted to its equivalence class
under `normRecordType` (trim + uppercase): one of the three recognized
literals, or anything else. -/
inductive TypeField
  | tIN
  | tOUT
  | tPURCHASE
  | tInvalid
deriving DecidableEq

/-- A raw movement-creation body as `normalizeRecordInput` sees it.
`count = none` models an absent field (`body?.count ?? 1`); `price = none`
models `null`, `undefined` or the empty string, which the source maps to
`null` before validation. -/
structure RawBody where
  rtype : TypeField
  count : Option JsNum
  price : Option JsNum
deriving DecidableEq

/-- Count coercion of `normalizeRecordInput`:
`Math.max(1, Math.abs(Number.isFinite(countNum) ? countNum : 1))` applied to
`body?.count ?? 1`.  Missing and non-finite counts become 1; otherwise the
absolute value clamped up to at least 1. -/
def coerceCount : Option JsNum → Int
  | none => 1
  | some .nonFinite => 1
  | some (.num n) => max 1 |n|

/-- Normalized movement fields returned by `normalizeRecordInput`. -/
structure NormalizedRecord where
  rtype : RType
  count : Int
  price : Option Int
deriving DecidableEq

/-- Embedding of `normalizeRecordInput` (src/api/utils/records.js lines
11-37).  IN forces price to null; PURCHASE requires a finite price > 0;
OUT allows a null price or a finite price ≥ 0.  `Math.floor` on an integer
price is the identity. -/
def normalizeRecordInput (b : RawBody) : Except String NormalizedRecord :=
  match b.rtype with
  | .tInvalid => .error "Invalid record type (IN/OUT/PURCHASE)"
  | .tIN => .ok ⟨.IN, coerceCount b.count, none⟩
  | .tPURCHASE =>
      match b.price with
      | some (.num p) =>
          if p ≤ 0 then .error "PURCHASE requires price (>0)"
          else .ok ⟨.PURCHASE, coerceCount b.count, some p⟩
      | _ => .error "PURCHASE requires price (>0)"
  | .tOUT =>
      match b.price with
      | none => .ok ⟨.OUT, coerceCount b.count, none⟩
      | some (.num p) =>
          if p < 0 then .error "Invalid price"
          else .ok ⟨.OUT, coerceCount b.count, some p⟩
      | some .nonFinite => .error "Invalid price"

/-- Boolean success test for `Except`. -/
def exceptOk {ε α : Type} : Except ε α → Bool
  | .ok _ => true
  | .error _ => false

/-- Counterexample for C8: the claim says a supplied count ≤ 0 fails with an
InvalidQuantity error, but `normalizeRecordInput` accepts `count = 0` and
silently coerces it to 1. -/
theorem normalizeRecordInput_count_zero_accepted :
    normalizeRecordInput ⟨.tIN, some (.num 0), none⟩ =
      .ok ⟨.IN, 1, none⟩ := rfl

/-- C8 (amended): the validator coerces the count instead of validating it —
a missing or non-finite count becomes 1, a negative magnitude has its
absolute value taken, and any value below 1 is clamped up to 1; whether
normalization succeeds never depends on the count, and no InvalidQuantity
error exists. -/
theorem normalizeRecordInput_count_coercion (b : RawBody) :
    (∀ r, normalizeRecordInput b = .ok r →
        r.count = coerceCount b.count ∧ 1 ≤ r.count)
    ∧ ∀ c, exceptOk (normalizeRecordInput { b with count := c }) =
        exceptOk (normalizeRecordInput b) := by
  have hcc : ∀ c, 1 ≤ coerceCount c := by
    intro c
    rcases c with _ | c
    · simp [coerceCount]
    · rcases c with n | _ <;> simp [coerceCount]
  constructor
  · intro r hr
    rcases b with ⟨t, c, p⟩
    cases t <;> simp only [normalizeRecordInput] at hr
    · rw [Except.ok.injEq] at hr
      subst hr
      exact ⟨rfl, hcc c⟩
    · rcases p with _ | (⟨n⟩ | _)
      · rw [Except.ok.injEq] at hr
        subst hr
        exact ⟨rfl, hcc c⟩
      · by_cases hn : n < 0
        · simp [hn] at hr
        · simp only [hn, if_false, if_neg hn, Except.ok.injEq] at hr
          subst hr
          exact ⟨rfl, hcc c⟩
      · cases hr
    · rcases p with _ | (⟨n⟩ | _)
      · cases hr
      · by_cases hn : n ≤ 0
        · simp [hn] at hr
        · simp only [hn, if_false, if_neg hn, Except.ok.injEq] at hr
          subst hr
          exact ⟨rfl, hcc c⟩
      · cases hr
    · cases hr
  · intro c
    rcases b with ⟨t, c0, p⟩
    cases t <;> simp only [normalizeRecordInput, exceptOk]
    · rcases p with _ | (⟨n⟩ | _)
      · rfl
      · by_cases hn : n < 0 <;> simp [hn]
      · rfl
    · rcases p with _ | (⟨n⟩ | _)
      · rfl
      · by_cases hn : n ≤ 0 <;> simp [hn]
      · rfl

/-- Witness for C8's amended theorem: a supplied count of −3 on an OUT body
is accepted with normalized count `coerceCount (some (.num (-3))) = 3`. -/
theorem normalizeRecordInput_count_coercion_witness :
    (⟨.OUT, 3, none⟩ : NormalizedRecord).count =
        coerceCount (some (.num (-3)))
    ∧ 1 ≤ (⟨.OUT, 3, none⟩ : NormalizedRecord).count :=
  (normalizeRecordInput_count_coercion ⟨.tOUT, some (.num (-3)), none⟩).1
    ⟨.OUT, 3, none⟩ rfl

/-- Outcome of the movement-creation handler
(POST /api/items/:itemId/records). -/
inductive CreateOutcome
  | validationError (msg : String)
  | insufficientStock (stock : Int)
  | created (record : Rec)
deriving DecidableEq

/-- Embedding of the POST /:itemId/records handler body for one item
(src routes, `createItemsRouter`): normalize the body; for a normalized OUT
movement reject with the current stock when `count > calcStock`; otherwise
persist a new row with `purchaseId = null` and the new identifier.  The
second component is the movement list after the request. -/
def postRecordHandler (records : List Rec) (b : RawBody) (newId : Nat) :
    CreateOutcome × List Rec :=
  match normalizeRecordInput b with
  | .error m => (.validationError m, records)
  | .ok n =>
      if n.rtype = .OUT ∧ calcStock records < n.count then
        (.insufficientStock (calcStock records), records)
      else
        let r : Rec := ⟨newId, n.rtype, n.count, n.price, none⟩
        (.created r, records ++ [r])

/-- C2: a movement-creation request whose normalized type is OUT and whose
count exceeds the current stock fails with an insufficient-stock error
carrying the current stock value, and the movement list — hence the derived
ledger — is unchanged. -/
theorem out_exceeding_stock_rejected (records : List Rec) (b : RawBody)
    (newId : Nat) (n : NormalizedRecord)
    (hn : normalizeRecordInput b = .ok n) (hOut : n.rtype = .OUT)
    (hGt : calcStock records < n.count) :
    postRecordHandler records b newId =
      (.insufficientStock (calcStock records), records)
    ∧ calcStockAndPending (postRecordHandler records b newId).2 =
      calcStockAndPending records := by
  have h : postRecordHandler records b newId =
      (.insufficientStock (calcStock records), records) := by
    unfold postRecordHandler
    rw [hn]
    simp [hOut, hGt]
  exact ⟨h, by rw [h]⟩

/-- Witness for C2: one IN(10) on hand, an OUT(11) request is rejected with
current stock 10 and leaves the list unchanged. -/
theorem out_exceeding_stock_rejected_witness :
    postRecordHandler [⟨1, .IN, 10, none, none⟩] ⟨.tOUT, some (.num 11), none⟩ 2 =
      (.insufficientStock (calcStock [⟨1, .IN, 10, none, none⟩]),
       [⟨1, .IN, 10, none, none⟩])
    ∧ calcStockAndPending
        (postRecordHandler [⟨1, .IN, 10, none, none⟩]
          ⟨.tOUT, some (.num 11), none⟩ 2).2 =
      calcStockAndPending [⟨1, .IN, 10, none, none⟩] :=
  out_exceeding_stock_rejected [⟨1, .IN, 10, none, none⟩]
    ⟨.tOUT, some (.num 11), none⟩ 2 ⟨.OUT, 11, none⟩ rfl rfl (by decide)

/-- Outcome of the movement-update handler (PUT /api/items/:itemId/records). -/
inductive UpdateOutcome
  | notFound
  | validationError (msg : String)
  | insufficientStock (stock : Int)
  | updated (record : Rec)
deriving DecidableEq

/-- Embedding of the PUT /:itemId/records handler body for one item:
locate the record, normalize the merged body, and for a normalized OUT
movement compare the new count against `stockExcludingThis`, which adds the
edited record's count back only when its previous type was OUT.  On success
the row is replaced in place, keeping its identifier and `purchaseId`. -/
def putRecordHandler (records : List Rec) (rid : Nat) (b : RawBody) :
    UpdateOutcome × List Rec :=
  match records.find? (fun r => r.id == rid) with
  | none => (.notFound, records)
  | some existing =>
      match normalizeRecordInput b with
      | .error m => (.validationError m, records)
      | .ok n =>
          let stockNow := calcStock records
          let stockExcludingThis :=
            if existing.rtype = .OUT then stockNow + existing.count else stockNow
          if n.rtype = .OUT ∧ stockExcludingThis < n.count then
            (.insufficientStock stockExcludingThis, records)
          else
            let r : Rec := ⟨existing.id, n.rtype, n.count, n.price,
              existing.purchaseId⟩
            (.updated r, records.map fun x => if x.id == rid then r else x)

/-- Counterexample for C7: editing the sole movement IN(5) of an item into
OUT(5) is accepted, although the stock recomputed excluding the edited
movement is 0 < 5 — the handler only excludes the edited movement when its
previous type was OUT, so the claimed exclusion does not apply regardless of
previous type (the accepted update drives the stock to −5). -/
theorem put_out_check_counterexample :
    (putRecordHandler [⟨1, .IN, 5, none, none⟩] 1
        ⟨.tOUT, some (.num 5), none⟩).1 =
      .updated ⟨1, .OUT, 5, none, none⟩
    ∧ calcStock
        (List.filter (fun r => r.id != 1) [⟨1, .IN, 5, none, none⟩]) < 5
    ∧ (calcStockAndPending
        (putRecordHandler [⟨1, .IN, 5, none, none⟩] 1
          ⟨.tOUT, some (.num 5), none⟩).2).stock = -5 := by
  decide

/-- C7 (amended): on a movement update whose normalized type is OUT the
stock-sufficiency check uses the current stock plus the edited movement's
own count only when the edited movement's previous type was OUT; for any
other previous type the check uses the current stock unchanged (the edited
movement is not excluded).  The update is rejected, with the compared stock
value and no list change, exactly when the new count exceeds that value. -/
theorem put_out_check_amended (records : List Rec) (rid : Nat) (b : RawBody)
    (existing : Rec) (n : NormalizedRecord)
    (hf : records.find? (fun r => r.id == rid) = some existing)
    (hn : normalizeRecordInput b = .ok n) (hOut : n.rtype = .OUT) :
    (if existing.rtype = .OUT then calcStock records + existing.count
        else calcStock records) < n.count →
      putRecordHandler records rid b =
        (.insufficientStock
          (if existing.rtype = .OUT then calcStock records + existing.count
            else calcStock records), records) := by
  intro hlt
  unfold putRecordHandler
  rw [hf, hn]
  simp only [hOut, true_and]
  rw [if_pos hlt]

/-- Witness for C7's amended theorem: with movements IN(3) and OUT(2),
editing the OUT(2) record to OUT(5) is rejected against
stock + own count = 1 + 2 = 3 < 5. -/
theorem put_out_check_amended_witness :
    putRecordHandler [⟨1, .OUT, 2, none, none⟩, ⟨2, .IN, 3, none, none⟩] 1
        ⟨.tOUT, some (.num 5), none⟩ =
      (.insufficientStock
        (if (⟨1, .OUT, 2, none, none⟩ : Rec).rtype = .OUT then
            calcStock [⟨1, .OUT, 2, none, none⟩, ⟨2, .IN, 3, none, none⟩] +
              (⟨1, .OUT, 2, none, none⟩ : Rec).count
          else calcStock [⟨1, .OUT, 2, none, none⟩, ⟨2, .IN, 3, none, none⟩]),
       [⟨1, .OUT, 2, none, none⟩, ⟨2, .IN, 3, none, none⟩]) :=
  put_out_check_amended
    [⟨1, .OUT, 2, none, none⟩, ⟨2, .IN, 3, none, none⟩] 1
    ⟨.tOUT, some (.num 5), none⟩ ⟨1, .OUT, 2, none, none⟩ ⟨.OUT, 5, none⟩
    rfl rfl rfl (by decide)

/-- Sum of the counts of the IN movements fulfilling one purchase; embeds
the `aggregate` over `{type: "IN", purchaseId}` in the arrive handler
(src/api/routes/records.js). -/
def arrivedSum (records : List Rec) (purchaseId : Nat) : Int :=
  (records.map fun r =>
    if r.rtype = .IN ∧ r.purchaseId = some purchaseId then r.count else 0).sum

/-- Outcome of POST /api/purchases/:purchaseId/arrive. -/
inductive ArriveOutcome
  | notFound
  | notPurchase
  | alreadyArrived
  | arrived (record : Rec) (remaining : Int)
deriving DecidableEq

/-- Embedding of the arrive handler (src/api/routes/records.js,
`createRecordsRouter`): load the purchase, reject non-purchases, compute
`remaining = max 0 (purchase.count - arrivedSum)`; if nothing remains reply
success with remaining 0 and no new movement; otherwise record
`remaining` itself (bulk) or the clamp `max 1 (min remaining c)` (partial,
with `Math.floor` the identity on integers) as a new IN movement carrying
`purchaseId`, and reply with the recomputed remaining. -/
def arriveHandler (records : List Rec) (purchaseId : Nat)
    (reqCount : Option Int) (newId : Nat) : ArriveOutcome × List Rec :=
  match records.find? (fun r => r.id == purchaseId) with
  | none => (.notFound, records)
  | some purchase =>
      if purchase.rtype ≠ .PURCHASE then (.notPurchase, records)
      else
        let remaining := max 0 (purchase.count - arrivedSum records purchaseId)
        if remaining ≤ 0 then (.alreadyArrived, records)
        else
          let count :=
            match reqCount with
            | none => remaining
            | some c => max 1 (min remaining c)
          let inRec : Rec := ⟨newId, .IN, count, none, some purchaseId⟩
          let records' := records ++ [inRec]
          (.arrived inRec
            (max 0 (purchase.count - arrivedSum records' purchaseId)),
           records')

/-- Iterated arrive calls against one purchase, with fresh identifiers. -/
def arriveSeq (records : List Rec) (purchaseId : Nat)
    (ops : List (Option Int)) (nextId : Nat) : List Rec :=
  match ops with
  | [] => records
  | op :: rest =>
      arriveSeq (arriveHandler records purchaseId op nextId).2 purchaseId rest
        (nextId + 1)

theorem find?_append_some {α : Type} (p : α → Bool) {l : List α}
    (l' : List α) {a : α} (h : l.find? p = some a) :
    (l ++ l').find? p = some a := by
  induction l with
  | nil => cases h
  | cons x xs ih =>
      rw [List.cons_append]
      cases hx : p x
      · rw [List.find?_cons_of_neg _ (by simp [hx])] at h
        rw [List.find?_cons_of_neg _ (by simp [hx])]
        exact ih h
      · rw [List.find?_cons_of_pos _ hx] at h
        rw [List.find?_cons_of_pos _ hx]
        exact h

theorem arrivedSum_append (records : List Rec) (r : Rec) (pid : Nat) :
    arrivedSum (records ++ [r]) pid =
      arrivedSum records pid +
        (if r.rtype = .IN ∧ r.purchaseId = some pid then r.count else 0) := by
  simp [arrivedSum]

theorem arrive_step_preserves (records : List Rec) (pid : Nat) (p : Rec)
    (hf : records.find? (fun r => r.id == pid) = some p)
    (hp : p.rtype = .PURCHASE)
    (hinv : arrivedSum records pid ≤ p.count)
    (op : Option Int) (nid : Nat) :
    (arriveHandler records pid op nid).2.find? (fun r => r.id == pid) = some p
    ∧ arrivedSum (arriveHandler records pid op nid).2 pid ≤ p.count := by
  simp only [arriveHandler, hf]
  rw [if_neg (by simp [hp])]
  by_cases hrem : max 0 (p.count - arrivedSum records pid) ≤ 0
  · rw [if_pos hrem]
    exact ⟨hf, hinv⟩
  · rw [if_neg hrem]
    constructor
    · exact find?_append_some _ _ hf
    · rw [arrivedSum_append]
      simp only [and_self, if_pos]
      rcases op with _ | c
      · simp only
        omega
      · simp only
        omega

theorem arriveSeq_preserves (pid : Nat) (p : Rec) (hp : p.rtype = .PURCHASE)
    (ops : List (Option Int)) :
    ∀ records nextId,
      records.find? (fun r => r.id == pid) = some p →
      arrivedSum records pid ≤ p.count →
      (arriveSeq records pid ops nextId).find? (fun r => r.id == pid) = some p
      ∧ arrivedSum (arriveSeq records pid ops nextId) pid ≤ p.count := by
  induction ops with
  | nil => intro records nextId hf hinv; exact ⟨hf, hinv⟩
  | cons op rest ih =>
      intro records nextId hf hinv
      have hstep := arrive_step_preserves records pid p hf hp hinv op nextId
      exact ih _ _ hstep.1 hstep.2

/-- C3: against a purchase movement p with linked arrivals not exceeding
p.count, (i) when nothing remains, arrive is a success no-op creating no
movement; (ii) a supplied requestedCount is clamped into
[1, remaining] and recorded as an IN movement fulfilling p, with the reply
carrying the recomputed remaining; (iii) after any sequence of arrive
operations the sum of counts of IN movements linked to p never exceeds
p.count. -/
theorem arrive_clamp_and_never_overfulfills (records : List Rec) (pid : Nat)
    (p : Rec) (hf : records.find? (fun r => r.id == pid) = some p)
    (hp : p.rtype = .PURCHASE)
    (hinv : arrivedSum records pid ≤ p.count) :
    (∀ req newId, p.count ≤ arrivedSum records pid →
        arriveHandler records pid req newId = (.alreadyArrived, records))
    ∧ (∀ c newId, arrivedSum records pid < p.count →
        arriveHandler records pid (some c) newId =
          (.arrived
            ⟨newId, .IN, max 1 (min (p.count - arrivedSum records pid) c),
              none, some pid⟩
            (max 0 (p.count - arrivedSum records pid -
              max 1 (min (p.count - arrivedSum records pid) c))),
           records ++
            [⟨newId, .IN, max 1 (min (p.count - arrivedSum records pid) c),
              none, some pid⟩])
        ∧ 1 ≤ max 1 (min (p.count - arrivedSum records pid) c)
        ∧ max 1 (min (p.count - arrivedSum records pid) c) ≤
            p.count - arrivedSum records pid)
    ∧ ∀ ops nextId,
        arrivedSum (arriveSeq records pid ops nextId) pid ≤ p.count := by
  refine ⟨?_, ?_, ?_⟩
  · intro req newId hle
    simp only [arriveHandler, hf]
    rw [if_neg (by simp [hp]), if_pos (by omega)]
  · intro c newId hlt
    have hrem : max 0 (p.count - arrivedSum records pid) =
        p.count - arrivedSum records pid := by omega
    refine ⟨?_, by omega, by omega⟩
    simp only [arriveHandler, hf]
    rw [if_neg (by simp [hp]), hrem, if_neg (by omega)]
    simp only [arrivedSum_append, and_self, if_pos]
    rw [Prod.mk.injEq, ArriveOutcome.arrived.injEq]
    refine ⟨⟨rfl, by omega⟩, rfl⟩
  · intro ops nextId
    exact (arriveSeq_preserves pid p hp ops records nextId hf hinv).2

/-- Witness for C3 at the spec's own example: PURCHASE(20) with no prior
arrivals; arrive with requestedCount 25 clamps to 20. -/
theorem arrive_clamp_and_never_overfulfills_witness :
    arriveHandler [⟨1, .PURCHASE, 20, some 100, none⟩] 1 (some 25) 2 =
      (.arrived
        ⟨2, .IN,
          max 1 (min ((20 : Int) -
            arrivedSum [⟨1, .PURCHASE, 20, some 100, none⟩] 1) 25),
          none, some 1⟩
        (max 0 ((20 : Int) - arrivedSum [⟨1, .PURCHASE, 20, some 100, none⟩] 1 -
          max 1 (min ((20 : Int) -
            arrivedSum [⟨1, .PURCHASE, 20, some 100, none⟩] 1) 25))),
       [⟨1, .PURCHASE, 20, some 100, none⟩] ++
        [⟨2, .IN,
          max 1 (min ((20 : Int) -
            arrivedSum [⟨1, .PURCHASE, 20, some 100, none⟩] 1) 25),
          none, some 1⟩])
    ∧ 1 ≤ max 1 (min ((20 : Int) -
        arrivedSum [⟨1, .PURCHASE, 20, some 100, none⟩] 1) 25)
    ∧ max 1 (min ((20 : Int) -
        arrivedSum [⟨1, .PURCHASE, 20, some 100, none⟩] 1) 25) ≤
      (20 : Int) - arrivedSum [⟨1, .PURCHASE, 20, some 100, none⟩] 1 :=
  (arrive_clamp_and_never_overfulfills
      [⟨1, .PURCHASE, 20, some 100, none⟩] 1 ⟨1, .PURCHASE, 20, some 100, none⟩
      rfl rfl (by decide)).2.1 25 2 (by decide)

/-- An active channel listing row as `computeTargetQuantities` reads it. -/
structure ChannelListing where
  id : Nat
  provider : String
deriving DecidableEq

/-- An `ItemInventoryPolicy` row.  The database stores integral buffer and
minVisible values, so the source's `Number.isFinite` fallbacks never fire on
an existing row. -/
structure InventoryPolicy where
  mode : String
  buffer : Int
  minVisible : Int
  exclusiveProvider : Option String
deriving DecidableEq

/-- The `DEFAULT_POLICY` constant of the sync service (src inventorySync
service): mode NORMAL, buffer 1, minVisible 1, no exclusive provider. -/
def DEFAULT_POLICY : InventoryPolicy := ⟨"NORMAL", 1, 1, none⟩

/-- Embedding of `clampNonNegative`. -/
def clampNonNegative (value : Int) : Int := if value < 0 then 0 else value

/-- Embedding of `computeVisibleNormal`. -/
def computeVisibleNormal (centralStock buffer minVisible : Int) : Int :=
  if centralStock ≤ 0 then 0
  else clampNonNegative (max minVisible (centralStock - buffer))

/-- Embedding of `computeVisibleExclusive`. -/
def computeVisibleExclusive (centralStock : Int) : Int :=
  if centralStock ≤ 0 then 0 else centralStock

/-- JavaScript truthiness of an optional string (`policy.exclusiveProvider`
is falsy when null or the empty string). -/
def strTruthy : Option String → Bool
  | none => false
  | some s => s != ""

/-- One `{provider, listingId, targetQty}` tuple of the sync engine. -/
structure SyncTarget where
  provider : String
  listingId : Nat
  targetQty : Int
deriving DecidableEq

/-- The per-listing body of the `listings.map` inside
`computeTargetQuantities`: the exclusive branch when the resolved mode is
EXCLUSIVE with a truthy `exclusiveProvider`, the normal branch otherwise. -/
def listingTargetQty (policy : InventoryPolicy) (centralStock : Int)
    (listing : ChannelListing) : Int :=
  let mode := if policy.mode = "" then DEFAULT_POLICY.mode else policy.mode
  if mode = "EXCLUSIVE" ∧ strTruthy policy.exclusiveProvider then
    if some listing.provider = policy.exclusiveProvider then
      computeVisibleExclusive centralStock
    else 0
  else computeVisibleNormal centralStock policy.buffer policy.minVisible

/-- Embedding of `computeTargetQuantities` (sync service): resolve the
policy row or the defaults, resolve `mode = policy.mode || "NORMAL"`, then
map each active listing to its target quantity via the exclusive or normal
visibility rule. -/
def computeTargetQuantities (policyRaw : Option InventoryPolicy)
    (centralStock : Int) (listings : List ChannelListing) : List SyncTarget :=
  let policy := policyRaw.getD DEFAULT_POLICY
  listings.map fun listing =>
    ⟨listing.provider, listing.id, listingTargetQty policy centralStock listing⟩

/-- The claim's description of the target quantity, written from the spec's
words: 0 whenever centralStock ≤ 0; under EXCLUSIVE with a designated
provider, centralStock for the designated listing and 0 for the others;
otherwise max(minVisible, centralStock − buffer) floored at 0.  Defaults
NORMAL / 1 / 1 apply when no policy row exists. -/
def specTargetQty (policyRaw : Option InventoryPolicy) (centralStock : Int)
    (listing : ChannelListing) : Int :=
  let policy := policyRaw.getD ⟨"NORMAL", 1, 1, none⟩
  if centralStock ≤ 0 then 0
  else if policy.mode = "EXCLUSIVE" ∧ strTruthy policy.exclusiveProvider then
    if policy.exclusiveProvider = some listing.provider then centralStock
    else 0
  else max 0 (max policy.minVisible (centralStock - policy.buffer))

theorem listingTargetQty_eq_spec (policy : InventoryPolicy) (s : Int)
    (l : ChannelListing) :
    listingTargetQty policy s l =
      if s ≤ 0 then 0
      else if policy.mode = "EXCLUSIVE"
          ∧ strTruthy policy.exclusiveProvider = true then
        if policy.exclusiveProvider = some l.provider then s else 0
      else max 0 (max policy.minVisible (s - policy.buffer)) := by
  unfold listingTargetQty
  by_cases hex : policy.mode = "EXCLUSIVE"
    ∧ strTruthy policy.exclusiveProvider = true
  · have hm' : ¬ policy.mode = "" := by
      rw [hex.1]; decide
    rw [if_neg hm', if_pos hex]
    by_cases hpl : some l.provider = policy.exclusiveProvider
    · have hpl' : policy.exclusiveProvider = some l.provider := hpl.symm
      rw [if_pos hpl, if_pos hpl']
      unfold computeVisibleExclusive
      by_cases hs : s ≤ 0
      · rw [if_pos hs, if_pos hs]
      · rw [if_neg hs, if_neg hs, if_pos hex]
    · have hpl' : ¬ policy.exclusiveProvider = some l.provider :=
        fun h => hpl h.symm
      rw [if_neg hpl, if_neg hpl']
      by_cases hs : s ≤ 0
      · rw [if_pos hs]
      · rw [if_neg hs, if_pos hex]
  · have hex' : ¬ ((if policy.mode = "" then DEFAULT_POLICY.mode
          else policy.mode) = "EXCLUSIVE"
        ∧ strTruthy policy.exclusiveProvider = true) := by
      intro h
      apply hex
      refine ⟨?_, h.2⟩
      by_cases hme : policy.mode = ""
      · rw [if_pos hme] at h
        exact absurd h.1 (by decide)
      · rw [if_neg hme] at h
        exact h.1
    rw [if_neg hex', if_neg hex]
    unfold computeVisibleNormal clampNonNegative
    by_cases hs : s ≤ 0
    · rw [if_pos hs, if_pos hs]
    · rw [if_neg hs, if_neg hs]
      by_cases h2 : max policy.minVisible (s - policy.buffer) < 0
      · rw [if_pos h2]
        omega
      · rw [if_neg h2]
        omega

/-- C4: for every policy (or absent policy row), central stock and listing
set, `computeTargetQuantities` produces exactly one target per listing whose
quantity is the one the specification describes. -/
theorem computeTargetQuantities_spec (policyRaw : Option InventoryPolicy)
    (centralStock : Int) (listings : List ChannelListing) :
    computeTargetQuantities policyRaw centralStock listings =
      listings.map fun l =>
        ⟨l.provider, l.id, specTargetQty policyRaw centralStock l⟩ := by
  unfold computeTargetQuantities
  refine List.map_congr_left ?_
  intro l hl
  simp only [SyncTarget.mk.injEq, true_and]
  rcases policyRaw with _ | policy <;>
    rw [listingTargetQty_eq_spec] <;> rfl

/-- Status of an `InventorySyncJob` row. -/
inductive JobStatus
  | PENDING
  | RUNNING
  | SUCCEEDED
  | FAILED
deriving DecidableEq

/-- An `InventorySyncJob` row.  Timestamps are integral epoch milliseconds;
`lockedAt = none` models a null lock. -/
structure SyncJob where
  userId : Nat
  provider : String
  itemId : Nat
  listingId : Nat
  targetQty : Int
  status : JobStatus
  attempts : Nat
  lastError : Option String
  nextRunAt : Int
  lockedAt : Option Int
deriving DecidableEq

/-- Embedding of `computeBackoffMinutes` (sync service). -/
def computeBackoffMinutes (attempts : Nat) : Nat :=
  if attempts ≤ 1 then 1
  else if attempts = 2 then 5
  else if attempts = 3 then 15
  else if attempts = 4 then 30
  else 60

/-- The backoff table as the specification words it: 1 minute for the new
attempts count ≤ 1, 5 for 2, 15 for 3, 30 for 4, 60 for ≥ 5. -/
def specBackoffMinutes (attempts : Nat) : Nat :=
  if attempts ≤ 1 then 1
  else if attempts = 2 then 5
  else if attempts = 3 then 15
  else if attempts = 4 then 30
  else 60

/-- Result of one adapter `updateStock` invocation as the job runner sees
it: `ok` for `{ok: true}`; `fail` for a thrown error, a missing listing, or
a result without `ok: true` (all of which land in the same catch block). -/
inductive AdapterResult
  | ok
  | fail (message : String)
deriving DecidableEq

/-- Embedding of the per-job outcome handling of `runInventorySyncJobs`
(sync service): on success the job becomes SUCCEEDED with lock and error
cleared; on failure attempts is incremented, the backoff delay is computed
from the new attempts count, `nextRunAt = now + delay`, the error is
recorded, the lock is cleared, and the status becomes FAILED when the new
attempts count reaches 5, else PENDING. -/
def applyJobOutcome (job : SyncJob) (outcome : AdapterResult) (now : Int) :
    SyncJob :=
  match outcome with
  | .ok => { job with status := .SUCCEEDED, lockedAt := none, lastError := none }
  | .fail msg =>
      let attempts := job.attempts + 1
      let delayMinutes := computeBackoffMinutes attempts
      { job with
          status := if 5 ≤ attempts then .FAILED else .PENDING,
          attempts := attempts,
          lastError := some msg,
          nextRunAt := now + (delayMinutes : Int) * 60 * 1000,
          lockedAt := none }

/-- C5: a claimed job whose adapter invocation fails has attempts
incremented, nextRunAt set to now plus the backoff delay determined by the
new attempts count (1/5/15/30/60 minutes), the error recorded, the lock
cleared, and status FAILED exactly when the new attempts count is ≥ 5,
PENDING otherwise. -/
theorem job_failure_transition (job : SyncJob) (msg : String) (now : Int) :
    applyJobOutcome job (.fail msg) now =
      { job with
          status := if 5 ≤ job.attempts + 1 then .FAILED else .PENDING,
          attempts := job.attempts + 1,
          lastError := some msg,
          nextRunAt :=
            now + (specBackoffMinutes (job.attempts + 1) : Int) * 60 * 1000,
          lockedAt := none } := rfl

/-- Due-and-unlocked selection predicate of `runInventorySyncJobs`
(`status: PENDING, nextRunAt ≤ now, lockedAt: null`). -/
def eligible (j : SyncJob) (now : Int) : Bool :=
  decide (j.status = .PENDING) && decide (j.nextRunAt ≤ now) &&
    decide (j.lockedAt = none)

/-- The unique key `(userId, provider, itemId)` of the upsert in
`enqueueInventorySync`. -/
def jobKeyMatches (userId : Nat) (provider : String) (itemId : Nat)
    (j : SyncJob) : Bool :=
  decide (j.userId = userId) && decide (j.provider = provider) &&
    decide (j.itemId = itemId)

/-- Embedding of one `prisma.inventorySyncJob.upsert` of
`enqueueInventorySync`: if a row with the key exists, overwrite its
listingId and targetQty, reset status to PENDING and attempts to 0, clear
lastError and the lock, and set nextRunAt to now; otherwise create a fresh
PENDING row due now (lastError and lockedAt are null by schema default).
`resetJob` is the upsert's update object. -/
def resetJob (j : SyncJob) (target : SyncTarget) (now : Int) : SyncJob :=
  { j with
      listingId := target.listingId,
      targetQty := target.targetQty,
      status := .PENDING,
      attempts := 0,
      lastError := none,
      nextRunAt := now,
      lockedAt := none }

def upsertSyncJob (jobs : List SyncJob) (userId itemId : Nat)
    (target : SyncTarget) (now : Int) : List SyncJob :=
  if jobs.any (jobKeyMatches userId target.provider itemId) then
    jobs.map fun j =>
      if jobKeyMatches userId target.provider itemId j then resetJob j target now
      else j
  else
    jobs ++ [⟨userId, target.provider, itemId, target.listingId,
      target.targetQty, .PENDING, 0, none, now, none⟩]

/-- Embedding of `enqueueInventorySync`: one upsert per target, in order. -/
def enqueueInventorySync (jobs : List SyncJob) (userId itemId : Nat)
    (targets : List SyncTarget) (now : Int) : List SyncJob :=
  targets.foldl (fun acc t => upsertSyncJob acc userId itemId t now) jobs

/-- Iterated enqueue operations, each with its own clock reading. -/
def upsertSeq (jobs : List SyncJob) (userId itemId : Nat)
    (ops : List (SyncTarget × Int)) : List SyncJob :=
  ops.foldl (fun acc o => upsertSyncJob acc userId itemId o.1 o.2) jobs

/-- Number of job rows for one `(userId, provider, itemId)` key. -/
def countKey (jobs : List SyncJob) (userId : Nat) (provider : String)
    (itemId : Nat) : Nat :=
  (jobs.filter (jobKeyMatches userId provider itemId)).length

theorem jobKeyMatches_resetJob (u : Nat) (p : String) (i : Nat) (j : SyncJob)
    (t : SyncTarget) (now : Int) :
    jobKeyMatches u p i (resetJob j t now) = jobKeyMatches u p i j := rfl

theorem countKey_map_reset (jobs : List SyncJob) (u i : Nat) (t : SyncTarget)
    (now : Int) (p : String) :
    countKey (jobs.map fun j =>
        if jobKeyMatches u t.provider i j then resetJob j t now else j) u p i
      = countKey jobs u p i := by
  induction jobs with
  | nil => rfl
  | cons x xs ih =>
      unfold countKey at *
      rw [List.map_cons, List.filter_cons, List.filter_cons]
      have hpres : jobKeyMatches u p i
          (if jobKeyMatches u t.provider i x then resetJob x t now else x) =
          jobKeyMatches u p i x := by
        by_cases hk1 : jobKeyMatches u t.provider i x = true
        · rw [if_pos hk1, jobKeyMatches_resetJob]
        · rw [if_neg hk1]
      rw [hpres]
      by_cases hk2 : jobKeyMatches u p i x = true
      · rw [if_pos hk2, if_pos hk2]
        simp [ih]
      · rw [if_neg hk2, if_neg hk2]
        exact ih

theorem countKey_pos_of_any (jobs : List SyncJob) (u : Nat) (p : String)
    (i : Nat) (h : jobs.any (jobKeyMatches u p i) = true) :
    1 ≤ countKey jobs u p i := by
  rcases List.any_eq_true.mp h with ⟨x, hx, hk⟩
  have hmem : x ∈ jobs.filter (jobKeyMatches u p i) :=
    List.mem_filter.mpr ⟨hx, hk⟩
  have := List.length_pos.mpr (List.ne_nil_of_mem hmem)
  unfold countKey
  omega

theorem countKey_eq_zero_of_not_any (jobs : List SyncJob) (u : Nat)
    (p : String) (i : Nat) (h : jobs.any (jobKeyMatches u p i) = false) :
    countKey jobs u p i = 0 := by
  unfold countKey
  rw [List.filter_eq_nil_iff.mpr]
  · rfl
  · intro a ha
    have := List.any_eq_false.mp h a ha
    simpa using this

theorem countKey_append_new (jobs : List SyncJob) (u i : Nat) (t : SyncTarget)
    (now : Int) (p : String) :
    countKey (jobs ++ [⟨u, t.provider, i, t.listingId, t.targetQty, .PENDING,
        0, none, now, none⟩]) u p i
      = countKey jobs u p i + (if t.provider = p then 1 else 0) := by
  unfold countKey
  rw [List.filter_append, List.length_append]
  congr 1
  by_cases hp : t.provider = p
  · rw [if_pos hp]
    simp [jobKeyMatches, hp]
  · rw [if_neg hp]
    simp [jobKeyMatches, hp]

theorem countKey_upsert_le (jobs : List SyncJob) (u i : Nat) (t : SyncTarget)
    (now : Int) (p : String) (h : countKey jobs u p i ≤ 1) :
    countKey (upsertSyncJob jobs u i t now) u p i ≤ 1 := by
  unfold upsertSyncJob
  by_cases hany : jobs.any (jobKeyMatches u t.provider i) = true
  · rw [if_pos hany, countKey_map_reset]
    exact h
  · have hany' : jobs.any (jobKeyMatches u t.provider i) = false :=
      Bool.eq_false_iff.mpr hany
    rw [if_neg hany, countKey_append_new]
    by_cases hp : t.provider = p
    · have h0 : countKey jobs u p i = 0 := by
        rw [← hp]
        exact countKey_eq_zero_of_not_any jobs u t.provider i hany'
      rw [if_pos hp]
      omega
    · rw [if_neg hp]
      omega

theorem countKey_upsert_final (jobs : List SyncJob) (u i : Nat)
    (t : SyncTarget) (now : Int)
    (h : countKey jobs u t.provider i ≤ 1) :
    countKey (upsertSyncJob jobs u i t now) u t.provider i = 1 := by
  unfold upsertSyncJob
  by_cases hany : jobs.any (jobKeyMatches u t.provider i) = true
  · rw [if_pos hany, countKey_map_reset]
    have := countKey_pos_of_any jobs u t.provider i hany
    omega
  · have hany' : jobs.any (jobKeyMatches u t.provider i) = false :=
      Bool.eq_false_iff.mpr hany
    rw [if_neg hany, countKey_append_new, if_pos rfl,
      countKey_eq_zero_of_not_any jobs u t.provider i hany']

theorem upsert_values (jobs : List SyncJob) (u i : Nat) (t : SyncTarget)
    (now : Int) :
    ∀ j ∈ upsertSyncJob jobs u i t now,
      jobKeyMatches u t.provider i j = true →
      j.targetQty = t.targetQty ∧ j.listingId = t.listingId
      ∧ j.status = .PENDING ∧ j.attempts = 0 ∧ j.lastError = none
      ∧ j.lockedAt = none ∧ j.nextRunAt = now := by
  intro j hj hk
  unfold upsertSyncJob at hj
  by_cases hany : jobs.any (jobKeyMatches u t.provider i) = true
  · rw [if_pos hany] at hj
    rcases List.mem_map.mp hj with ⟨x, hx, hxj⟩
    by_cases hk1 : jobKeyMatches u t.provider i x = true
    · rw [if_pos hk1] at hxj
      subst hxj
      exact ⟨rfl, rfl, rfl, rfl, rfl, rfl, rfl⟩
    · rw [if_neg hk1] at hxj
      subst hxj
      exact absurd hk hk1
  · rw [if_neg hany] at hj
    rcases List.mem_append.mp hj with hjl | hjr
    · have := List.any_eq_false.mp (Bool.eq_false_iff.mpr hany) j hjl
      simp [hk] at this
    · have : j = ⟨u, t.provider, i, t.listingId, t.targetQty, .PENDING, 0,
          none, now, none⟩ := by
        simpa using hjr
      subst this
      exact ⟨rfl, rfl, rfl, rfl, rfl, rfl, rfl⟩

theorem countKey_upsertSeq_le (u i : Nat) (p : String)
    (ops : List (SyncTarget × Int)) :
    ∀ jobs, countKey jobs u p i ≤ 1 →
      countKey (upsertSeq jobs u i ops) u p i ≤ 1 := by
  induction ops with
  | nil => intro jobs h; exact h
  | cons o rest ih =>
      intro jobs h
      exact ih _ (countKey_upsert_le jobs u i o.1 o.2 p h)

/-- C6: starting from a job table holding at most one row for the triple
(u, provider, i), after any sequence of enqueue upserts ending with target
`last`, exactly one row exists for `last`'s triple, and that row carries
`last`'s targetQty and listingId with status PENDING, attempts 0, lastError
null, lock cleared and nextRunAt set to the last enqueue's clock — the last
enqueued target supersedes all earlier ones. -/
theorem enqueue_supersession (jobs : List SyncJob) (u i : Nat)
    (ops : List (SyncTarget × Int)) (last : SyncTarget × Int)
    (hcount : countKey jobs u last.1.provider i ≤ 1) :
    countKey (upsertSeq jobs u i (ops ++ [last])) u last.1.provider i = 1
    ∧ ∀ j ∈ upsertSeq jobs u i (ops ++ [last]),
        jobKeyMatches u last.1.provider i j = true →
        j.targetQty = last.1.targetQty ∧ j.listingId = last.1.listingId
        ∧ j.status = .PENDING ∧ j.attempts = 0 ∧ j.lastError = none
        ∧ j.lockedAt = none ∧ j.nextRunAt = last.2 := by
  have hseq : upsertSeq jobs u i (ops ++ [last]) =
      upsertSyncJob (upsertSeq jobs u i ops) u i last.1 last.2 := by
    unfold upsertSeq
    rw [List.foldl_append]
    rfl
  have hle : countKey (upsertSeq jobs u i ops) u last.1.provider i ≤ 1 :=
    countKey_upsertSeq_le u i last.1.provider ops jobs hcount
  rw [hseq]
  exact ⟨countKey_upsert_final _ u i last.1 last.2 hle,
    upsert_values _ u i last.1 last.2⟩

/-- Witness for C6 at the spec's example: enqueue target 7 then target 3
for the same (user 1, NAVER, item 1); exactly one row remains, carrying
targetQty 3, attempts 0, status PENDING. -/
theorem enqueue_supersession_witness :
    countKey (upsertSeq [] 1 1 ([(⟨"NAVER", 5, 7⟩, 0)] ++ [(⟨"NAVER", 5, 3⟩, 0)]))
        1 "NAVER" 1 = 1
    ∧ ∀ j ∈ upsertSeq [] 1 1 ([(⟨"NAVER", 5, 7⟩, 0)] ++ [(⟨"NAVER", 5, 3⟩, 0)]),
        jobKeyMatches 1 "NAVER" 1 j = true →
        j.targetQty = 3 ∧ j.listingId = 5
        ∧ j.status = .PENDING ∧ j.attempts = 0 ∧ j.lastError = none
        ∧ j.lockedAt = none ∧ j.nextRunAt = 0 :=
  enqueue_supersession [] 1 1 [(⟨"NAVER", 5, 7⟩, 0)] (⟨"NAVER", 5, 3⟩, 0)
    (by decide)

/-- C10: any existing job row for the enqueued triple — whatever its
status, including terminal FAILED — is unconditionally reset by the upsert:
it reappears in the table as PENDING with attempts 0, lastError null, lock
cleared, nextRunAt now, and is therefore eligible for the runner's
due-and-unlocked selection at that instant. -/
theorem enqueue_resets_failed_job (jobs : List SyncJob) (u i : Nat)
    (t : SyncTarget) (now : Int) (f : SyncJob)
    (hf : f ∈ jobs) (hk : jobKeyMatches u t.provider i f = true) :
    resetJob f t now ∈ upsertSyncJob jobs u i t now
    ∧ (resetJob f t now).status = .PENDING
    ∧ (resetJob f t now).attempts = 0
    ∧ (resetJob f t now).lastError = none
    ∧ (resetJob f t now).lockedAt = none
    ∧ (resetJob f t now).nextRunAt = now
    ∧ eligible (resetJob f t now) now = true := by
  have hany : jobs.any (jobKeyMatches u t.provider i) = true :=
    List.any_eq_true.mpr ⟨f, hf, hk⟩
  unfold upsertSyncJob
  rw [if_pos hany]
  refine ⟨?_, rfl, rfl, rfl, rfl, rfl, ?_⟩
  · have himg : (fun j =>
        if jobKeyMatches u t.provider i j then resetJob j t now else j) f =
        resetJob f t now := by
      simp only [hk, if_true]
    rw [← himg]
    exact List.mem_map_of_mem _ hf
  · simp [eligible, resetJob]

/-- Witness for C10: a terminally FAILED job with 5 attempts is reset to a
PENDING, eligible job by a new enqueue for its triple. -/
theorem enqueue_resets_failed_job_witness :
    resetJob ⟨1, "NAVER", 1, 5, 4, .FAILED, 5, some "boom", 99, none⟩
        ⟨"NAVER", 5, 2⟩ 100 ∈
      upsertSyncJob [⟨1, "NAVER", 1, 5, 4, .FAILED, 5, some "boom", 99, none⟩]
        1 1 ⟨"NAVER", 5, 2⟩ 100
    ∧ (resetJob ⟨1, "NAVER", 1, 5, 4, .FAILED, 5, some "boom", 99, none⟩
        ⟨"NAVER", 5, 2⟩ 100).status = .PENDING
    ∧ (resetJob ⟨1, "NAVER", 1, 5, 4, .FAILED, 5, some "boom", 99, none⟩
        ⟨"NAVER", 5, 2⟩ 100).attempts = 0
    ∧ (resetJob ⟨1, "NAVER", 1, 5, 4, .FAILED, 5, some "boom", 99, none⟩
        ⟨"NAVER", 5, 2⟩ 100).lastError = none
    ∧ (resetJob ⟨1, "NAVER", 1, 5, 4, .FAILED, 5, some "boom", 99, none⟩
        ⟨"NAVER", 5, 2⟩ 100).lockedAt = none
    ∧ (resetJob ⟨1, "NAVER", 1, 5, 4, .FAILED, 5, some "boom", 99, none⟩
        ⟨"NAVER", 5, 2⟩ 100).nextRunAt = 100
    ∧ eligible (resetJob ⟨1, "NAVER", 1, 5, 4, .FAILED, 5, some "boom", 99, none⟩
        ⟨"NAVER", 5, 2⟩ 100) 100 = true :=
  enqueue_resets_failed_job
    [⟨1, "NAVER", 1, 5, 4, .FAILED, 5, some "boom", 99, none⟩] 1 1
    ⟨"NAVER", 5, 2⟩ 100 ⟨1, "NAVER", 1, 5, 4, .FAILED, 5, some "boom", 99, none⟩
    (by decide) (by decide)

/-- The adapter implementations reachable from the dispatcher module
(src/integrations/providers): the four imported `updateStock` functions
plus the KREAM adapter that src/integrations/providers/kream.js defines
and exports but the dispatcher never imports. -/
inductive AdapterImpl
  | naverAdapter
  | coupangAdapter
  | elevenstAdapter
  | etcAdapter
  | kreamAdapter
deriving DecidableEq

/-- Embedding of `getProviderClient` (src/integrations/providers/index.js):
a switch over the provider string with cases NAVER, COUPANG, ELEVENST and
ETC, and a default returning the ETC adapter.  There is no KREAM case. -/
def getProviderClient : String → AdapterImpl
  | "NAVER" => .naverAdapter
  | "COUPANG" => .coupangAdapter
  | "ELEVENST" => .elevenstAdapter
  | "ETC" => .etcAdapter
  | _ => .etcAdapter

/-- C9 evidence: the dispatcher resolves each of NAVER, COUPANG, ELEVENST
and ETC to its own adapter and unknown strings to the ETC/default adapter,
but "KREAM" — a provider the integrations router accepts and for which
kream.js supplies a dedicated `updateStock` — falls through to the default
adapter instead of the KREAM one. -/
theorem getProviderClient_kream_falls_through :
    getProviderClient "NAVER" = .naverAdapter
    ∧ getProviderClient "COUPANG" = .coupangAdapter
    ∧ getProviderClient "ELEVENST" = .elevenstAdapter
    ∧ getProviderClient "ETC" = .etcAdapter
    ∧ getProviderClient "UNKNOWN" = .etcAdapter
    ∧ getProviderClient "KREAM" = .etcAdapter
    ∧ getProviderClient "KREAM" ≠ .kreamAdapter := by
  refine ⟨rfl, rfl, rfl, rfl, rfl, rfl, ?_⟩
  decide

end OrangeFanta
